import Mathlib

/-!
Verification of the serverless-function deployment workflow of boto3-js
(`SimpleLambda` in `src/lambda`, with its collaborator `SimpleIAM` in
`src/iam`), shallowly embedded in Lean.

The embedding follows the JavaScript source:
  * `Jsonv` models a JSON-representable JavaScript value; `jsonStringify`
    and `jsonParse` model `JSON.stringify` / `JSON.parse` (numbers are
    modelled as integers; rendering is minimal, without whitespace).
  * JavaScript exceptions are modelled with `Except JsError`; an `Error`
    object is a `JsError` (class name + message).
  * The AWS collaborators (IAM role store, Lambda control plane, the SDK
    waiters) are modelled as explicit state / oracle functions in
    `IamState` and `LambdaEnv`; each wrapper method mirrors the
    corresponding method of the source class, including its error
    wrapping (`_handleError`).
  * The externally visible calls a run makes are collected in a `List Op`
    trace, so that frame/idempotence properties can be stated.
-/

/-! ### JSON values (the payloads `JSON.stringify`/`JSON.parse` handle) -/

/-- A JSON-representable JavaScript value. Numbers are modelled as
integers (the source never produces fractional payload literals of its
own; the round-trip claim is settled on this fragment). -/
inductive Jsonv where
  | null
  | bool (b : Bool)
  | num (n : Int)
  | str (s : String)
  | arr (elems : List Jsonv)
  | obj (fields : List (String × Jsonv))

/-! ### Rendering, as `JSON.stringify` does (no whitespace) -/

/-- Decimal digit character for `n < 10`. -/
def decDigit (n : Nat) : Char := Char.ofNat (48 + n)

/-- Lowercase hexadecimal digit character for `n < 16`. -/
def hexDigit (n : Nat) : Char :=
  if n < 10 then Char.ofNat (48 + n) else Char.ofNat (87 + n)

/-- Decimal digits of `n`, most significant first. -/
def decDigits (n : Nat) : List Char :=
  if _h : n < 10 then [decDigit n]
  else decDigits (n / 10) ++ [decDigit (n % 10)]
termination_by n
decreasing_by exact Nat.div_lt_self (by omega) (by omega)

/-- How `JSON.stringify` escapes one character inside a string literal. -/
def escapeChar (c : Char) : List Char :=
  if c = '"' then ['\\', '"']
  else if c = '\\' then ['\\', '\\']
  else if c = '\n' then ['\\', 'n']
  else if c = '\r' then ['\\', 'r']
  else if c = '\t' then ['\\', 't']
  else if c = '\x08' then ['\\', 'b']
  else if c = '\x0c' then ['\\', 'f']
  else if c.toNat < 32 then
    ['\\', 'u', '0', '0', hexDigit (c.toNat / 16), hexDigit (c.toNat % 16)]
  else [c]

/-- Escape a whole string body. -/
def escapeBody : List Char → List Char
  | [] => []
  | c :: cs => escapeChar c ++ escapeBody cs

mutual

/-- Characters of `JSON.stringify v` (compact form, no whitespace). -/
def stringifyValue : Jsonv → List Char
  | .null => "null".toList
  | .bool true => "true".toList
  | .bool false => "false".toList
  | .num n => if n < 0 then '-' :: decDigits n.natAbs else decDigits n.toNat
  | .str s => '"' :: (escapeBody s.toList ++ ['"'])
  | .arr [] => ['[', ']']
  | .arr (x :: xs) => '[' :: (stringifyValue x ++ (stringifyElems xs ++ [']']))
  | .obj [] => ['\x7b', '\x7d']
  | .obj (f :: fs) => '\x7b' :: (stringifyField f ++ (stringifyFields fs ++ ['\x7d']))

/-- Rendered tail of an array: a leading comma before every further element. -/
def stringifyElems : List Jsonv → List Char
  | [] => []
  | x :: xs => ',' :: (stringifyValue x ++ stringifyElems xs)

/-- One rendered object member, `"key":value`. -/
def stringifyField : String × Jsonv → List Char
  | (k, v) => '"' :: (escapeBody k.toList ++ ('"' :: ':' :: stringifyValue v))

/-- Rendered tail of an object: a leading comma before every further member. -/
def stringifyFields : List (String × Jsonv) → List Char
  | [] => []
  | f :: fs => ',' :: (stringifyField f ++ stringifyFields fs)

end

/-- `JSON.stringify`, modelled. -/
def jsonStringify (v : Jsonv) : String := String.mk (stringifyValue v)

/-! ### Parsing, as `JSON.parse` does (strict; whole input must decode) -/

/-- Value of one hexadecimal digit character. -/
def hexValue (c : Char) : Option Nat :=
  if 48 ≤ c.toNat ∧ c.toNat ≤ 57 then some (c.toNat - 48)
  else if 97 ≤ c.toNat ∧ c.toNat ≤ 102 then some (c.toNat - 87)
  else if 65 ≤ c.toNat ∧ c.toNat ≤ 70 then some (c.toNat - 55)
  else none

/-- Consume a maximal run of decimal digits, folding them onto `a`. -/
def parseDigitsAux (a : Nat) : List Char → Nat × List Char
  | [] => (a, [])
  | c :: rest =>
    if c.isDigit then parseDigitsAux (a * 10 + (c.toNat - 48)) rest
    else (a, c :: rest)

/-- Parse a string body up to (and through) the closing quote. -/
def parseStringBody : List Char → Option (List Char × List Char)
  | [] => none
  | c :: rest =>
    if c = '"' then some ([], rest)
    else if c = '\\' then
      match rest with
      | [] => none
      | e :: rest₁ =>
        if e = '"' then (parseStringBody rest₁).map (fun p => ('"' :: p.1, p.2))
        else if e = '\\' then (parseStringBody rest₁).map (fun p => ('\\' :: p.1, p.2))
        else if e = '/' then (parseStringBody rest₁).map (fun p => ('/' :: p.1, p.2))
        else if e = 'n' then (parseStringBody rest₁).map (fun p => ('\n' :: p.1, p.2))
        else if e = 'r' then (parseStringBody rest₁).map (fun p => ('\r' :: p.1, p.2))
        else if e = 't' then (parseStringBody rest₁).map (fun p => ('\t' :: p.1, p.2))
        else if e = 'b' then (parseStringBody rest₁).map (fun p => ('\x08' :: p.1, p.2))
        else if e = 'f' then (parseStringBody rest₁).map (fun p => ('\x0c' :: p.1, p.2))
        else if e = 'u' then
          match rest₁ with
          | h₁ :: h₂ :: h₃ :: h₄ :: rest₂ =>
            match hexValue h₁, hexValue h₂, hexValue h₃, hexValue h₄ with
            | some a, some b, some c', some d =>
              (parseStringBody rest₂).map
                (fun p => (Char.ofNat (((a * 16 + b) * 16 + c') * 16 + d) :: p.1, p.2))
            | _, _, _, _ => none
          | _ => none
        else none
    else (parseStringBody rest).map (fun p => (c :: p.1, p.2))
termination_by l => l.length
decreasing_by all_goals simp_arith [List.length]

mutual

/-- Parse one JSON value; `fuel` only bounds recursion depth. -/
def parseValue : Nat → List Char → Option (Jsonv × List Char)
  | 0, _ => none
  | _ + 1, [] => none
  | fuel + 1, c :: rest =>
    if c = 'n' then
      match rest with
      | 'u' :: 'l' :: 'l' :: r => some (.null, r)
      | _ => none
    else if c = 't' then
      match rest with
      | 'r' :: 'u' :: 'e' :: r => some (.bool true, r)
      | _ => none
    else if c = 'f' then
      match rest with
      | 'a' :: 'l' :: 's' :: 'e' :: r => some (.bool false, r)
      | _ => none
    else if c = '"' then
      (parseStringBody rest).map (fun p => (.str (String.mk p.1), p.2))
    else if c = '[' then
      match rest with
      | [] => none
      | c₂ :: rest₂ =>
        if c₂ = ']' then some (.arr [], rest₂)
        else (parseElems fuel (c₂ :: rest₂)).map (fun p => (.arr p.1, p.2))
    else if c = '\x7b' then
      match rest with
      | [] => none
      | c₂ :: rest₂ =>
        if c₂ = '\x7d' then some (.obj [], rest₂)
        else (parseFields fuel (c₂ :: rest₂)).map (fun p => (.obj p.1, p.2))
    else if c = '-' then
      match rest with
      | [] => none
      | d :: rest₂ =>
        if d.isDigit then
          let p := parseDigitsAux 0 (d :: rest₂)
          some (.num (-(p.1 : Int)), p.2)
        else none
    else if c.isDigit then
      let p := parseDigitsAux 0 (c :: rest)
      some (.num (p.1 : Int), p.2)
    else none

/-- Parse the members of a non-empty array, from the first element through
the closing bracket. -/
def parseElems : Nat → List Char → Option (List Jsonv × List Char)
  | 0, _ => none
  | fuel + 1, input =>
    match parseValue fuel input with
    | none => none
    | some (v, rest) =>
      match rest with
      | ',' :: rest₁ => (parseElems fuel rest₁).map (fun p => (v :: p.1, p.2))
      | ']' :: rest₁ => some ([v], rest₁)
      | _ => none
termination_by structural fuel _ => fuel

/-- Parse the members of a non-empty object, from the first key through
the closing brace. -/
def parseFields : Nat → List Char → Option (List (String × Jsonv) × List Char)
  | 0, _ => none
  | fuel + 1, input =>
    match input with
    | '"' :: rest =>
      match parseStringBody rest with
      | none => none
      | some (k, rest₁) =>
        match rest₁ with
        | ':' :: rest₂ =>
          match parseValue fuel rest₂ with
          | none => none
          | some (v, rest₃) =>
            match rest₃ with
            | ',' :: rest₄ =>
              (parseFields fuel rest₄).map (fun p => ((String.mk k, v) :: p.1, p.2))
            | '\x7d' :: rest₄ => some ([(String.mk k, v)], rest₄)
            | _ => none
        | _ => none
    | _ => none
termination_by structural fuel _ => fuel

end

/-- `JSON.parse`, modelled: strict, whole-input decoding; `none` is the
`SyntaxError` case. -/
def jsonParse (s : String) : Option Jsonv :=
  match parseValue (s.toList.length + 1) s.toList with
  | some (v, []) => some v
  | _ => none

/-! ### Round-trip: decimal digits -/

/-- True when the list does not begin with a decimal digit (so a maximal
digit run ends exactly there). -/
def noDigitHead : List Char → Bool
  | [] => true
  | c :: _ => !c.isDigit

theorem decDigit_spec : ∀ n, n < 10 →
    (decDigit n).isDigit = true ∧ (decDigit n).toNat - 48 = n := by decide

theorem decDigits_cons (n : Nat) :
    ∃ d ds, decDigits n = d :: ds ∧ d.isDigit = true := by
  induction n using Nat.strongRecOn with
  | _ n ih =>
    rw [decDigits.eq_def]
    by_cases h : n < 10
    · exact ⟨decDigit n, [], by simp [h], (decDigit_spec n h).1⟩
    · simp only [dif_neg h]
      obtain ⟨d, ds, hds, hd⟩ := ih (n / 10) (Nat.div_lt_self (by omega) (by omega))
      exact ⟨d, ds ++ [decDigit (n % 10)], by rw [hds]; rfl, hd⟩

theorem parseDigitsAux_decDigits (n : Nat) : ∀ (a : Nat) (rest : List Char),
    parseDigitsAux a (decDigits n ++ rest) =
      parseDigitsAux (a * 10 ^ (decDigits n).length + n) rest := by
  induction n using Nat.strongRecOn with
  | _ n ih =>
    intro a rest
    rw [decDigits.eq_def]
    by_cases h : n < 10
    · simp only [dif_pos h, List.singleton_append, List.length_singleton]
      have hd := decDigit_spec n h
      simp [parseDigitsAux, hd.1, hd.2]
    · simp only [dif_neg h, List.append_assoc, List.singleton_append]
      rw [ih (n / 10) (Nat.div_lt_self (by omega) (by omega))]
      have h10 : n % 10 < 10 := Nat.mod_lt _ (by omega)
      have hd := decDigit_spec (n % 10) h10
      simp only [parseDigitsAux, hd.1, if_true, hd.2, List.length_append,
        List.length_singleton]
      have hdm := Nat.div_add_mod n 10
      rw [pow_succ, ← Nat.mul_assoc]
      generalize a * 10 ^ (decDigits (n / 10)).length = Q
      congr 1
      omega

theorem parseDigitsAux_stop (a : Nat) (rest : List Char)
    (h : noDigitHead rest = true) : parseDigitsAux a rest = (a, rest) := by
  cases rest with
  | nil => rfl
  | cons c t =>
    simp only [noDigitHead, Bool.not_eq_true'] at h
    simp [parseDigitsAux, h]

theorem parseDigitsAux_round (n : Nat) (rest : List Char)
    (h : noDigitHead rest = true) :
    parseDigitsAux 0 (decDigits n ++ rest) = (n, rest) := by
  rw [parseDigitsAux_decDigits, Nat.zero_mul, Nat.zero_add, parseDigitsAux_stop _ _ h]

/-! ### Round-trip: string escapes -/

theorem hexValue_hexDigit : ∀ n, n < 16 → hexValue (hexDigit n) = some n := by decide

theorem hexValue_zero : hexValue '0' = some 0 := by decide

theorem parseStringBody_escapeBody (s : List Char) : ∀ (rest : List Char),
    parseStringBody (escapeBody s ++ ('"' :: rest)) = some (s, rest) := by
  induction s with
  | nil =>
    intro rest
    rw [escapeBody, List.nil_append, parseStringBody.eq_def]
    simp
  | cons c cs ih =>
    intro rest
    simp only [escapeBody, List.append_assoc]
    unfold escapeChar
    split_ifs with h1 h2 h3 h4 h5 h6 h7 h8
    · subst h1; rw [List.cons_append, parseStringBody.eq_def]; simp [ih]
    · subst h2; rw [List.cons_append, parseStringBody.eq_def]; simp [ih]
    · subst h3; rw [List.cons_append, parseStringBody.eq_def]; simp [ih]
    · subst h4; rw [List.cons_append, parseStringBody.eq_def]; simp [ih]
    · subst h5; rw [List.cons_append, parseStringBody.eq_def]; simp [ih]
    · subst h6; rw [List.cons_append, parseStringBody.eq_def]; simp [ih]
    · subst h7; rw [List.cons_append, parseStringBody.eq_def]; simp [ih]
    · have hdiv : c.toNat / 16 < 16 := by omega
      have hmod : c.toNat % 16 < 16 := Nat.mod_lt _ (by omega)
      rw [List.cons_append, parseStringBody.eq_def]
      simp [hexValue_zero, hexValue_hexDigit _ hdiv, hexValue_hexDigit _ hmod, ih]
      have hfull : c.toNat / 16 * 16 + c.toNat % 16 = c.toNat := by
        have := Nat.div_add_mod c.toNat 16
        omega
      rw [hfull, Char.ofNat_toNat]
    · rw [List.cons_append, parseStringBody.eq_def]
      simp [h1, h2, ih]

/-! ### Round-trip: leading characters -/

/-- Characters that can begin the rendering of a value. -/
def jsonStart (c : Char) : Bool :=
  c == 'n' || c == 't' || c == 'f' || c == '"' || c == '[' || c == '\x7b' ||
    c == '-' || c.isDigit

theorem isDigit_excl (c : Char) (h : c.isDigit = true) :
    c ≠ 'n' ∧ c ≠ 't' ∧ c ≠ 'f' ∧ c ≠ '"' ∧ c ≠ '[' ∧ c ≠ '\x7b' ∧ c ≠ '-' := by
  refine ⟨?_, ?_, ?_, ?_, ?_, ?_, ?_⟩ <;>
    · intro he; subst he; exact absurd h (by decide)

theorem jsonStart_ne_rbracket (c : Char) (h : jsonStart c = true) : c ≠ ']' := by
  intro he; subst he; exact absurd h (by decide)

theorem stringifyValue_head (v : Jsonv) :
    ∃ c cs, stringifyValue v = c :: cs ∧ jsonStart c = true := by
  cases v with
  | null => exact ⟨'n', ['u', 'l', 'l'], by decide, by decide⟩
  | bool b =>
    cases b with
    | true => exact ⟨'t', ['r', 'u', 'e'], by decide, by decide⟩
    | false => exact ⟨'f', ['a', 'l', 's', 'e'], by decide, by decide⟩
  | num n =>
    by_cases h : n < 0
    · exact ⟨'-', decDigits n.natAbs, by simp [stringifyValue, h], by decide⟩
    · obtain ⟨d, ds, hds, hd⟩ := decDigits_cons n.toNat
      refine ⟨d, ds, ?_, ?_⟩
      · simp [stringifyValue, h, hds]
      · simp [jsonStart, hd]
  | str s =>
    exact ⟨'"', escapeBody s.toList ++ ['"'], by simp [stringifyValue], by decide⟩
  | arr es =>
    cases es with
    | nil => exact ⟨'[', [']'], by simp [stringifyValue], by decide⟩
    | cons x xs =>
      exact ⟨'[', stringifyValue x ++ (stringifyElems xs ++ [']']),
        by simp [stringifyValue], by decide⟩
  | obj fs =>
    cases fs with
    | nil => exact ⟨'\x7b', ['\x7d'], by simp [stringifyValue], by decide⟩
    | cons f fs =>
      exact ⟨'\x7b', stringifyField f ++ (stringifyFields fs ++ ['\x7d']),
        by simp [stringifyValue], by decide⟩

/-! ### Named unfolding equations (kept small so later proofs stay cheap) -/

theorem stringifyValue_null : stringifyValue .null = ['n', 'u', 'l', 'l'] := by
  decide

theorem stringifyValue_boolTrue :
    stringifyValue (.bool true) = ['t', 'r', 'u', 'e'] := by
  decide

theorem stringifyValue_boolFalse :
    stringifyValue (.bool false) = ['f', 'a', 'l', 's', 'e'] := by
  decide

theorem stringifyValue_num (n : Int) :
    stringifyValue (.num n)
      = if n < 0 then '-' :: decDigits n.natAbs else decDigits n.toNat := by
  simp [stringifyValue]

theorem stringifyValue_str (s : String) :
    stringifyValue (.str s) = '"' :: (escapeBody s.toList ++ ['"']) := by
  simp [stringifyValue]

theorem stringifyValue_arrNil : stringifyValue (.arr []) = ['[', ']'] := by
  simp [stringifyValue]

theorem stringifyValue_arrCons (x : Jsonv) (xs : List Jsonv) :
    stringifyValue (.arr (x :: xs))
      = '[' :: (stringifyValue x ++ (stringifyElems xs ++ [']'])) := by
  simp [stringifyValue]

theorem stringifyValue_objNil : stringifyValue (.obj []) = ['\x7b', '\x7d'] := by
  simp [stringifyValue]

theorem stringifyValue_objCons (f : String × Jsonv) (fs : List (String × Jsonv)) :
    stringifyValue (.obj (f :: fs))
      = '\x7b' :: (stringifyField f ++ (stringifyFields fs ++ ['\x7d'])) := by
  simp [stringifyValue]

theorem stringifyElems_nil : stringifyElems [] = [] := by
  simp [stringifyElems]

theorem stringifyElems_cons (x : Jsonv) (xs : List Jsonv) :
    stringifyElems (x :: xs) = ',' :: (stringifyValue x ++ stringifyElems xs) := by
  simp [stringifyElems]

theorem stringifyField_eq (k : String) (v : Jsonv) :
    stringifyField (k, v)
      = '"' :: (escapeBody k.toList ++ ('"' :: ':' :: stringifyValue v)) := by
  simp [stringifyField]

theorem stringifyFields_nil : stringifyFields [] = [] := by
  simp [stringifyFields]

theorem stringifyFields_cons (f : String × Jsonv) (fs : List (String × Jsonv)) :
    stringifyFields (f :: fs) = ',' :: (stringifyField f ++ stringifyFields fs) := by
  simp [stringifyFields]

theorem parseValue_null (f : Nat) (r : List Char) :
    parseValue (f + 1) ('n' :: 'u' :: 'l' :: 'l' :: r) = some (.null, r) := rfl

theorem parseValue_boolTrue (f : Nat) (r : List Char) :
    parseValue (f + 1) ('t' :: 'r' :: 'u' :: 'e' :: r) = some (.bool true, r) := rfl

theorem parseValue_boolFalse (f : Nat) (r : List Char) :
    parseValue (f + 1) ('f' :: 'a' :: 'l' :: 's' :: 'e' :: r)
      = some (.bool false, r) := rfl

theorem parseValue_quote (f : Nat) (r : List Char) :
    parseValue (f + 1) ('"' :: r)
      = (parseStringBody r).map (fun p => (.str (String.mk p.1), p.2)) := rfl

theorem parseValue_arrNil (f : Nat) (r : List Char) :
    parseValue (f + 1) ('[' :: ']' :: r) = some (.arr [], r) := rfl

theorem parseValue_arrCons (f : Nat) (c₂ : Char) (r₂ : List Char) (h : c₂ ≠ ']') :
    parseValue (f + 1) ('[' :: c₂ :: r₂)
      = (parseElems f (c₂ :: r₂)).map (fun p => (.arr p.1, p.2)) := by
  rw [show parseValue (f + 1) ('[' :: c₂ :: r₂)
      = if c₂ = ']' then some (.arr [], r₂)
        else (parseElems f (c₂ :: r₂)).map (fun p => (.arr p.1, p.2)) from rfl,
    if_neg h]

theorem parseValue_objNil (f : Nat) (r : List Char) :
    parseValue (f + 1) ('\x7b' :: '\x7d' :: r) = some (.obj [], r) := rfl

theorem parseValue_objCons (f : Nat) (c₂ : Char) (r₂ : List Char) (h : c₂ ≠ '\x7d') :
    parseValue (f + 1) ('\x7b' :: c₂ :: r₂)
      = (parseFields f (c₂ :: r₂)).map (fun p => (.obj p.1, p.2)) := by
  rw [show parseValue (f + 1) ('\x7b' :: c₂ :: r₂)
      = if c₂ = '\x7d' then some (.obj [], r₂)
        else (parseFields f (c₂ :: r₂)).map (fun p => (.obj p.1, p.2)) from rfl,
    if_neg h]

theorem parseValue_neg (f : Nat) (d : Char) (r : List Char) (hd : d.isDigit = true) :
    parseValue (f + 1) ('-' :: d :: r)
      = some (.num (-((parseDigitsAux 0 (d :: r)).1 : Int)),
          (parseDigitsAux 0 (d :: r)).2) := by
  rw [show parseValue (f + 1) ('-' :: d :: r)
      = if d.isDigit then
          some (.num (-((parseDigitsAux 0 (d :: r)).1 : Int)),
            (parseDigitsAux 0 (d :: r)).2)
        else none from rfl,
    if_pos hd]

theorem parseValue_digit (f : Nat) (d : Char) (r : List Char) (hd : d.isDigit = true) :
    parseValue (f + 1) (d :: r)
      = some (.num ((parseDigitsAux 0 (d :: r)).1 : Int),
          (parseDigitsAux 0 (d :: r)).2) := by
  obtain ⟨e1, e2, e3, e4, e5, e6, e7⟩ := isDigit_excl d hd
  simp only [parseValue, if_neg e1, if_neg e2, if_neg e3, if_neg e4, if_neg e5,
    if_neg e6, if_neg e7, if_pos hd]

theorem parseElems_last (f : Nat) (input : List Char) (v : Jsonv) (r : List Char)
    (h : parseValue f input = some (v, ']' :: r)) :
    parseElems (f + 1) input = some ([v], r) := by
  simp only [parseElems, h]

theorem parseElems_more (f : Nat) (input : List Char) (v : Jsonv) (r : List Char)
    (h : parseValue f input = some (v, ',' :: r)) :
    parseElems (f + 1) input = (parseElems f r).map (fun p => (v :: p.1, p.2)) := by
  simp only [parseElems, h]

theorem parseFields_last (f : Nat) (rest₀ : List Char) (k : List Char) (v : Jsonv)
    (r₂ r₄ : List Char)
    (hk : parseStringBody rest₀ = some (k, ':' :: r₂))
    (hv : parseValue f r₂ = some (v, '\x7d' :: r₄)) :
    parseFields (f + 1) ('"' :: rest₀) = some ([(String.mk k, v)], r₄) := by
  simp only [parseFields, hk, hv]

theorem parseFields_more (f : Nat) (rest₀ : List Char) (k : List Char) (v : Jsonv)
    (r₂ r₄ : List Char)
    (hk : parseStringBody rest₀ = some (k, ':' :: r₂))
    (hv : parseValue f r₂ = some (v, ',' :: r₄)) :
    parseFields (f + 1) ('"' :: rest₀)
      = (parseFields f r₄).map (fun p => ((String.mk k, v) :: p.1, p.2)) := by
  simp only [parseFields, hk, hv]

/-! ### The codec round-trip -/

theorem list_sizeOf_pos {α : Type} [SizeOf α] (l : List α) : 0 < sizeOf l := by
  cases l <;> simp_arith

set_option maxHeartbeats 1600000

mutual

theorem rtValue : ∀ (v : Jsonv) (fuel : Nat) (rest : List Char),
    (stringifyValue v).length < fuel → noDigitHead rest = true →
    parseValue fuel (stringifyValue v ++ rest) = some (v, rest)
  | .null, fuel, rest, hf, _ => by
    cases fuel with
    | zero => exact absurd hf (Nat.not_lt_zero _)
    | succ f =>
      rw [stringifyValue_null]
      exact parseValue_null f rest
  | .bool true, fuel, rest, hf, _ => by
    cases fuel with
    | zero => exact absurd hf (Nat.not_lt_zero _)
    | succ f =>
      rw [stringifyValue_boolTrue]
      exact parseValue_boolTrue f rest
  | .bool false, fuel, rest, hf, _ => by
    cases fuel with
    | zero => exact absurd hf (Nat.not_lt_zero _)
    | succ f =>
      rw [stringifyValue_boolFalse]
      exact parseValue_boolFalse f rest
  | .num n, fuel, rest, hf, hr => by
    cases fuel with
    | zero => exact absurd hf (Nat.not_lt_zero _)
    | succ f =>
      rw [stringifyValue_num]
      by_cases hneg : n < 0
      · rw [if_pos hneg]
        obtain ⟨d, ds, hds, hd⟩ := decDigits_cons n.natAbs
        have hpd : parseDigitsAux 0 (d :: (ds ++ rest)) = (n.natAbs, rest) := by
          rw [← List.cons_append, ← hds]
          exact parseDigitsAux_round _ _ hr
        rw [hds]
        simp only [List.cons_append]
        rw [parseValue_neg f d (ds ++ rest) hd, hpd]
        have hn : -((n.natAbs : Int)) = n := by omega
        show some (Jsonv.num (-((n.natAbs : Nat) : Int)), rest) = some (Jsonv.num n, rest)
        rw [hn]
      · rw [if_neg hneg]
        obtain ⟨d, ds, hds, hd⟩ := decDigits_cons n.toNat
        have hpd : parseDigitsAux 0 (d :: (ds ++ rest)) = (n.toNat, rest) := by
          rw [← List.cons_append, ← hds]
          exact parseDigitsAux_round _ _ hr
        rw [hds]
        simp only [List.cons_append]
        rw [parseValue_digit f d (ds ++ rest) hd, hpd]
        have hn : ((n.toNat : Int)) = n := by omega
        show some (Jsonv.num ((n.toNat : Nat) : Int), rest) = some (Jsonv.num n, rest)
        rw [hn]
  | .str s, fuel, rest, hf, _ => by
    cases fuel with
    | zero => exact absurd hf (Nat.not_lt_zero _)
    | succ f =>
      rw [stringifyValue_str]
      simp only [List.cons_append, List.append_assoc, List.singleton_append]
      rw [parseValue_quote, parseStringBody_escapeBody]
      simp
  | .arr [], fuel, rest, hf, _ => by
    cases fuel with
    | zero => exact absurd hf (Nat.not_lt_zero _)
    | succ f =>
      rw [stringifyValue_arrNil]
      exact parseValue_arrNil f rest
  | .arr (x :: xs), fuel, rest, hf, hr => by
    cases fuel with
    | zero => exact absurd hf (Nat.not_lt_zero _)
    | succ f =>
      obtain ⟨c₀, cs₀, hc₀, hstart⟩ := stringifyValue_head x
      have hne := jsonStart_ne_rbracket c₀ hstart
      have hlen : (stringifyValue x ++ stringifyElems xs).length + 1 < f := by
        rw [stringifyValue_arrCons] at hf
        simp only [List.length_cons, List.length_append, List.length_singleton] at hf
        simp only [List.length_append]
        omega
      have key := rtElems x xs f rest hlen hr
      rw [stringifyValue_arrCons]
      simp only [List.cons_append, List.append_assoc, List.singleton_append,
        List.nil_append]
      rw [hc₀]
      simp only [List.cons_append]
      rw [parseValue_arrCons f c₀ _ hne]
      rw [← List.cons_append, ← hc₀, key]
      rfl
  | .obj [], fuel, rest, hf, _ => by
    cases fuel with
    | zero => exact absurd hf (Nat.not_lt_zero _)
    | succ f =>
      rw [stringifyValue_objNil]
      exact parseValue_objNil f rest
  | .obj ((k, v) :: fs), fuel, rest, hf, hr => by
    cases fuel with
    | zero => exact absurd hf (Nat.not_lt_zero _)
    | succ f =>
      have hlen : (stringifyField (k, v) ++ stringifyFields fs).length + 1 < f := by
        rw [stringifyValue_objCons] at hf
        simp only [List.length_cons, List.length_append, List.length_singleton] at hf
        simp only [List.length_append]
        omega
      have key := rtFields k v fs f rest hlen hr
      rw [stringifyValue_objCons]
      simp only [List.cons_append, List.append_assoc, List.singleton_append,
        List.nil_append]
      rw [stringifyField_eq]
      simp only [List.cons_append]
      rw [parseValue_objCons f '"' _ (by decide)]
      rw [← List.cons_append, ← stringifyField_eq, key]
      rfl
  termination_by v _ _ _ _ => sizeOf v

theorem rtElems : ∀ (x : Jsonv) (xs : List Jsonv) (fuel : Nat) (rest : List Char),
    (stringifyValue x ++ stringifyElems xs).length + 1 < fuel →
    noDigitHead rest = true →
    parseElems fuel (stringifyValue x ++ (stringifyElems xs ++ (']' :: rest)))
      = some (x :: xs, rest)
  | x, [], fuel, rest, hf, hr => by
    cases fuel with
    | zero => exact absurd hf (Nat.not_lt_zero _)
    | succ f =>
      have htail : noDigitHead (stringifyElems [] ++ (']' :: rest)) = true := by
        rw [stringifyElems_nil]; rfl
      have hx : (stringifyValue x).length < f := by
        simp only [List.length_append] at hf
        omega
      have hv := rtValue x f (stringifyElems [] ++ (']' :: rest)) hx htail
      rw [stringifyElems_nil] at hv ⊢
      rw [List.nil_append] at hv ⊢
      exact parseElems_last f _ x rest hv
  | x, y :: ys, fuel, rest, hf, hr => by
    cases fuel with
    | zero => exact absurd hf (Nat.not_lt_zero _)
    | succ f =>
      have htail : noDigitHead (stringifyElems (y :: ys) ++ (']' :: rest)) = true := by
        rw [stringifyElems_cons]; rfl
      have hx : (stringifyValue x).length < f := by
        simp only [List.length_append] at hf
        omega
      have hv := rtValue x f (stringifyElems (y :: ys) ++ (']' :: rest)) hx htail
      rw [stringifyElems_cons] at hv ⊢
      simp only [List.cons_append, List.append_assoc] at hv ⊢
      have hlen₂ : (stringifyValue y ++ stringifyElems ys).length + 1 < f := by
        rw [stringifyElems_cons] at hf
        simp only [List.length_append, List.length_cons] at hf
        simp only [List.length_append]
        omega
      have key := rtElems y ys f rest hlen₂ hr
      rw [parseElems_more f _ x _ hv, key]
      rfl
  termination_by x xs _ _ _ _ => sizeOf x + sizeOf xs
  decreasing_by
    all_goals simp_wf
    all_goals omega

theorem rtFields : ∀ (k : String) (v : Jsonv) (fs : List (String × Jsonv))
    (fuel : Nat) (rest : List Char),
    (stringifyField (k, v) ++ stringifyFields fs).length + 1 < fuel →
    noDigitHead rest = true →
    parseFields fuel
        (stringifyField (k, v) ++ (stringifyFields fs ++ ('\x7d' :: rest)))
      = some ((k, v) :: fs, rest)
  | k, v, [], fuel, rest, hf, hr => by
    cases fuel with
    | zero => exact absurd hf (Nat.not_lt_zero _)
    | succ f =>
      have htail : noDigitHead (stringifyFields [] ++ ('\x7d' :: rest)) = true := by
        rw [stringifyFields_nil]; rfl
      have hvlen : (stringifyValue v).length < f := by
        rw [stringifyField_eq] at hf
        simp only [List.length_cons, List.length_append] at hf
        omega
      have hval := rtValue v f (stringifyFields [] ++ ('\x7d' :: rest)) hvlen htail
      rw [stringifyField_eq]
      simp only [List.cons_append, List.append_assoc]
      rw [stringifyFields_nil] at hval ⊢
      rw [List.nil_append] at hval ⊢
      have hk := parseStringBody_escapeBody k.toList
        (':' :: (stringifyValue v ++ ('\x7d' :: rest)))
      exact parseFields_last f _ k.toList v _ rest hk hval
  | k, v, (k₂, v₂) :: gs, fuel, rest, hf, hr => by
    cases fuel with
    | zero => exact absurd hf (Nat.not_lt_zero _)
    | succ f =>
      have htail : noDigitHead (stringifyFields ((k₂, v₂) :: gs)
          ++ ('\x7d' :: rest)) = true := by
        rw [stringifyFields_cons]; rfl
      have hvlen : (stringifyValue v).length < f := by
        rw [stringifyField_eq] at hf
        simp only [List.length_cons, List.length_append] at hf
        omega
      have hval := rtValue v f (stringifyFields ((k₂, v₂) :: gs)
        ++ ('\x7d' :: rest)) hvlen htail
      rw [stringifyField_eq]
      simp only [List.cons_append, List.append_assoc]
      rw [stringifyFields_cons] at hval ⊢
      simp only [List.cons_append, List.append_assoc] at hval ⊢
      have hk := parseStringBody_escapeBody k.toList
        (':' :: (stringifyValue v ++ (',' :: (stringifyField (k₂, v₂) ++
          (stringifyFields gs ++ ('\x7d' :: rest))))))
      have hlen₂ : (stringifyField (k₂, v₂) ++ stringifyFields gs).length + 1 < f := by
        rw [stringifyField_eq, stringifyFields_cons] at hf
        simp only [List.length_append, List.length_cons] at hf
        simp only [List.length_append]
        omega
      have key := rtFields k₂ v₂ gs f rest hlen₂ hr
      rw [parseFields_more f _ k.toList v _ _ hk hval, key]
      rfl
  termination_by k v fs _ _ _ _ => sizeOf v + sizeOf fs
  decreasing_by
    all_goals simp_wf
    all_goals omega

end

theorem stringifyValue_ne_nil (v : Jsonv) : stringifyValue v ≠ [] := by
  obtain ⟨c, cs, hc, _⟩ := stringifyValue_head v
  rw [hc]
  simp

/-- `JSON.parse (JSON.stringify v)` recovers `v` exactly. -/
theorem jsonParse_jsonStringify (v : Jsonv) : jsonParse (jsonStringify v) = some v := by
  have h := rtValue v ((stringifyValue v).length + 1) [] (by omega) rfl
  rw [List.append_nil] at h
  simp only [jsonParse, jsonStringify]
  rw [show (String.mk (stringifyValue v)).toList = stringifyValue v from rfl]
  rw [h]

/-! ### JavaScript errors -/

/-- A JavaScript `Error`: constructor (class) name plus message. `throw` is
modelled with `Except.error`. -/
structure JsError where
  name : String
  message : String
deriving Repr, DecidableEq

/-! ### The IAM collaborator (`SimpleIAM`, `src/iam/simpleIAM.js`) -/

/-- Provider-side IAM state, together with an injectable lookup fault so that
authorization/throttling failures of `GetRole` can be exercised. -/
structure IamState where
  roles : List (String × String)
  attachments : List (String × String)
  getRoleFault : Option JsError
deriving Repr, DecidableEq

/-- The ARN the modelled provider hands back for a newly created role. -/
def mkRoleArn (roleName : String) : String :=
  "arn:aws:iam::000000000000:role/" ++ roleName

/-- AWS `NoSuchEntityException` for a missing role. -/
def noSuchEntity (roleName : String) : JsError :=
  ⟨"NoSuchEntityException", "The role with name " ++ roleName ++ " cannot be found."⟩

/-- AWS `EntityAlreadyExistsException` for a duplicate role. -/
def entityAlreadyExists (roleName : String) : JsError :=
  ⟨"EntityAlreadyExistsException", "Role with name " ++ roleName ++ " already exists."⟩

/-- The provider's `GetRoleCommand`: the injected fault if any, else the
stored role, else `NoSuchEntityException`. -/
def awsGetRole (st : IamState) (roleName : String) : Except JsError String :=
  match st.getRoleFault with
  | some e => .error e
  | none =>
    match st.roles.lookup roleName with
    | some arn => .ok arn
    | none => .error (noSuchEntity roleName)

/-- The provider's `CreateRoleCommand`. -/
def awsCreateRole (st : IamState) (roleName : String) :
    Except JsError String × IamState :=
  match st.roles.lookup roleName with
  | some _ => (.error (entityAlreadyExists roleName), st)
  | none =>
    (.ok (mkRoleArn roleName),
      { st with roles := st.roles ++ [(roleName, mkRoleArn roleName)] })

/-- The provider's `AttachRolePolicyCommand`. -/
def awsAttachRolePolicy (st : IamState) (roleName policyArn : String) :
    Except JsError Unit × IamState :=
  match st.roles.lookup roleName with
  | some _ => (.ok (), { st with attachments := st.attachments ++ [(roleName, policyArn)] })
  | none => (.error (noSuchEntity roleName), st)

namespace SimpleIAM

/-- `SimpleIAM._handleError`: wrap any failure in a generic `Error` whose
message carries the operation name and the cause's message. -/
def handleError (operation : String) (e : JsError) : JsError :=
  ⟨"Error", "IAM " ++ operation ++ " failed: " ++ e.message⟩

/-- `SimpleIAM.getRole` (returns the role's Arn; wraps provider errors). -/
def getRole (st : IamState) (roleName : String) : Except JsError String :=
  match awsGetRole st roleName with
  | .ok arn => .ok arn
  | .error e => .error (handleError ("getRole(" ++ roleName ++ ")") e)

/-- `SimpleIAM.createRole` (serializes the trust document, then creates). -/
def createRole (st : IamState) (roleName : String) (_assumeDoc : Jsonv) :
    Except JsError String × IamState :=
  match awsCreateRole st roleName with
  | (.ok arn, st') => (.ok arn, st')
  | (.error e, st') =>
    (.error (handleError ("createRole(" ++ roleName ++ ")") e), st')

/-- `SimpleIAM.attachPolicyToRole`. -/
def attachPolicyToRole (st : IamState) (roleName policyArn : String) :
    Except JsError Unit × IamState :=
  match awsAttachRolePolicy st roleName policyArn with
  | (.ok u, st') => (.ok u, st')
  | (.error e, st') =>
    (.error (handleError
      ("attachPolicyToRole(" ++ roleName ++ ", " ++ policyArn ++ ")") e), st')

end SimpleIAM

/-! ### Externally visible calls (for frame / idempotence claims) -/

/-- Configuration the source passes to `CreateFunctionCommand`. -/
structure CreateFunctionConfig where
  role : String
  handler : String
  runtime : String
  codeZip : List (String × String)
  description : String
  timeout : Int
  memorySize : Int
deriving Repr, DecidableEq

/-- One externally visible collaborator call. -/
inductive Op where
  | iamGetRole (roleName : String)
  | iamCreateRole (roleName : String) (assumeDoc : String)
  | iamAttachRolePolicy (roleName policyArn : String)
  | lambdaCreateFunction (functionName : String) (cfg : CreateFunctionConfig)
  | lambdaUpdateFunctionCode (functionName : String) (zip : List (String × String))
  | lambdaPollFunction (functionName : String)
  | lambdaInvoke (functionName : String) (payloadBytes : String)
deriving Repr, DecidableEq

/-- Identity (IAM) operations, as opposed to Lambda ones. -/
def isIamOp : Op → Bool
  | .iamGetRole _ => true
  | .iamCreateRole _ _ => true
  | .iamAttachRolePolicy _ _ => true
  | _ => false

/-- Number of create-identity calls in a trace. -/
def countCreates (tr : List Op) : Nat :=
  tr.countP (fun op => match op with | .iamCreateRole _ _ => true | _ => false)

/-! ### The Lambda orchestrator (`SimpleLambda`, `src/lambda/simpleLambda.js`) -/

/-- Function lifecycle states polled by the SDK waiters. -/
inductive FnState where
  | pending
  | active
  | failed
  | inProgress
  | updated
deriving Repr, DecidableEq

/-- The SDK waiter's timeout error. -/
def waiterTimedOut : JsError := ⟨"TimeoutError", "Waiter has timed out"⟩

/-- The AWS SDK waiter (`waitUntilFunctionActive` / `waitUntilFunctionUpdated`,
the spec's Activation Waiter): poll once per time-unit from index `i`,
stopping at the target state (success), at a hard poll error (propagated), or
when the budget runs out (`TimeoutError`). Also returns how many polls ran. -/
def awaitStateFrom (target : FnState) (poll : Nat → Except JsError FnState) :
    Nat → Nat → Except JsError Unit × Nat
  | _, 0 => (.error waiterTimedOut, 0)
  | i, fuel + 1 =>
    match poll i with
    | .error e => (.error e, 1)
    | .ok s =>
      if s = target then (.ok (), 1)
      else
        let r := awaitStateFrom target poll (i + 1) fuel
        (r.1, r.2 + 1)

/-- Run the waiter from the first poll with a `maxWait` budget. -/
def awaitState (target : FnState) (poll : Nat → Except JsError FnState)
    (maxWait : Nat) : Except JsError Unit × Nat :=
  awaitStateFrom target poll 0 maxWait

/-- The remote world a `SimpleLambda` run interacts with: the IAM state plus
oracles for each Lambda control-plane call. -/
structure LambdaEnv where
  iam : IamState
  createFunctionArn : Except JsError String
  updateFunctionArn : Except JsError String
  createPoll : Nat → Except JsError FnState
  updatePoll : Nat → Except JsError FnState
  invokeResult : Except JsError (Option String)

/-- Recognized `deploy` options (`none` models a JS `undefined` field). -/
structure DeployOpts where
  roleName : Option String
  handler : Option String
  runtime : Option String
  description : Option String
  timeout : Option Int
  memorySize : Option Int
deriving Repr, DecidableEq

/-- JavaScript `x || d` for an optional string field: `undefined` and the
empty string are falsy and give the default. -/
def jsOrStr : Option String → String → String
  | none, d => d
  | some s, d => if s = "" then d else s

/-- JavaScript `x || d` for an optional numeric field: `undefined` and `0`
are falsy and give the default. -/
def jsOrInt : Option Int → Int → Int
  | none, d => d
  | some n, d => if n = 0 then d else n

namespace SimpleLambda

/-- `SimpleLambda._handleError`: wrap any failure in a generic `Error` whose
message carries the operation name and the cause's message. -/
def handleError (operation : String) (e : JsError) : JsError :=
  ⟨"Error", "Lambda " ++ operation ++ " failed: " ++ e.message⟩

/-- `SimpleLambda._createZipBuffer`: zip the code string as the single entry
`index.js` (an archive is modelled by its entry list). The source performs no
validation, so no input is rejected. -/
def createZipBuffer (codeString : String) : Except JsError (List (String × String)) :=
  .ok [("index.js", codeString)]

/-- The trust policy document the source builds for a new Lambda role. -/
def assumePolicyDoc : Jsonv :=
  .obj [("Version", .str "2012-10-17"),
        ("Statement", .arr [.obj
          [("Effect", .str "Allow"),
           ("Principal", .obj [("Service", .str "lambda.amazonaws.com")]),
           ("Action", .str "sts:AssumeRole")]])]

/-- The managed policy the source attaches to a new role. -/
def basicExecutionPolicyArn : String :=
  "arn:aws:iam::aws:policy/service-role/AWSLambdaBasicExecutionRole"

/-- The default role name (the JS default parameter value). -/
def defaultRoleName : String := "boto3js-lambda-role"

/-- `SimpleLambda._getOrCreateRole`: try the lookup; on ANY error (the source
uses a bare `catch`) create the role, attach the managed policy, and return
the new Arn. Returns the result, the updated IAM state, and the trace. -/
def getOrCreateRole (st : IamState) (roleNameArg : Option String) :
    Except JsError String × IamState × List Op :=
  let roleName := roleNameArg.getD defaultRoleName
  match SimpleIAM.getRole st roleName with
  | .ok arn => (.ok arn, st, [.iamGetRole roleName])
  | .error _ =>
    match SimpleIAM.createRole st roleName assumePolicyDoc with
    | (.error e, st₁) =>
      (.error e, st₁,
        [.iamGetRole roleName,
         .iamCreateRole roleName (jsonStringify assumePolicyDoc)])
    | (.ok newArn, st₁) =>
      match SimpleIAM.attachPolicyToRole st₁ roleName basicExecutionPolicyArn with
      | (.error e, st₂) =>
        (.error e, st₂,
          [.iamGetRole roleName,
           .iamCreateRole roleName (jsonStringify assumePolicyDoc),
           .iamAttachRolePolicy roleName basicExecutionPolicyArn])
      | (.ok _, st₂) =>
        (.ok newArn, st₂,
          [.iamGetRole roleName,
           .iamCreateRole roleName (jsonStringify assumePolicyDoc),
           .iamAttachRolePolicy roleName basicExecutionPolicyArn])

/-- `SimpleLambda.deploy`: resolve the role, zip the code, issue the create
call, wait (budget 180) for the `Active` state, and only then return the
create response's `FunctionArn`. Any error is wrapped by `_handleError`. -/
def deploy (env : LambdaEnv) (functionName codeString : String) (opts : DeployOpts) :
    Except JsError String × IamState × List Op :=
  match getOrCreateRole env.iam opts.roleName with
  | (.error e, st', tr) =>
    (.error (handleError ("deploy(" ++ functionName ++ ")") e), st', tr)
  | (.ok roleArn, st', tr) =>
    match createZipBuffer codeString with
    | .error e =>
      (.error (handleError ("deploy(" ++ functionName ++ ")") e), st', tr)
    | .ok zipBuffer =>
      let cfg : CreateFunctionConfig :=
        { role := roleArn
          handler := jsOrStr opts.handler "index.handler"
          runtime := jsOrStr opts.runtime "nodejs18.x"
          codeZip := zipBuffer
          description := jsOrStr opts.description "Created by boto3-js SimpleLambda"
          timeout := jsOrInt opts.timeout 10
          memorySize := jsOrInt opts.memorySize 128 }
      let tr₁ := tr ++ [Op.lambdaCreateFunction functionName cfg]
      match env.createFunctionArn with
      | .error e =>
        (.error (handleError ("deploy(" ++ functionName ++ ")") e), st', tr₁)
      | .ok arn =>
        let w := awaitState .active env.createPoll 180
        let tr₂ := tr₁ ++ List.replicate w.2 (Op.lambdaPollFunction functionName)
        match w.1 with
        | .error e =>
          (.error (handleError ("deploy(" ++ functionName ++ ")") e), st', tr₂)
        | .ok _ => (.ok arn, st', tr₂)

/-- `SimpleLambda.update`: zip the code, issue the update-code call, wait
(budget 180) for the `Updated` state, then return the update response's
`FunctionArn`. No role resolution happens. -/
def update (env : LambdaEnv) (functionName codeString : String) :
    Except JsError String × List Op :=
  match createZipBuffer codeString with
  | .error e => (.error (handleError ("update(" ++ functionName ++ ")") e), [])
  | .ok zipBuffer =>
    let tr₁ := [Op.lambdaUpdateFunctionCode functionName zipBuffer]
    match env.updateFunctionArn with
    | .error e => (.error (handleError ("update(" ++ functionName ++ ")") e), tr₁)
    | .ok arn =>
      let w := awaitState .updated env.updatePoll 180
      let tr₂ := tr₁ ++ List.replicate w.2 (Op.lambdaPollFunction functionName)
      match w.1 with
      | .error e => (.error (handleError ("update(" ++ functionName ++ ")") e), tr₂)
      | .ok _ => (.ok arn, tr₂)

/-- The `SyntaxError` thrown by `JSON.parse` on undecodable input. -/
def jsonParseError (s : String) : JsError :=
  ⟨"SyntaxError", "Unexpected token in JSON: " ++ s⟩

/-- `SimpleLambda.invoke`: serialize the payload, issue the invoke call, and
decode the response: absent or empty bytes give `{}` (not an error); anything
else goes through `JSON.parse`, whose failure is caught and wrapped. -/
def invoke (env : LambdaEnv) (functionName : String) (payload : Jsonv) :
    Except JsError Jsonv × List Op :=
  let bytes := jsonStringify payload
  let tr := [Op.lambdaInvoke functionName bytes]
  match env.invokeResult with
  | .error e => (.error (handleError ("invoke(" ++ functionName ++ ")") e), tr)
  | .ok resp =>
    match resp with
    | none => (.ok (Jsonv.obj []), tr)
    | some s =>
      if s.toList.length = 0 then (.ok (Jsonv.obj []), tr)
      else
        match jsonParse s with
        | some v => (.ok v, tr)
        | none =>
          (.error (handleError ("invoke(" ++ functionName ++ ")") (jsonParseError s)), tr)

end SimpleLambda

/-! ### Waiter and lookup lemmas -/

theorem awaitStateFrom_ok (target : FnState) (poll : Nat → Except JsError FnState) :
    ∀ (fuel i : Nat), (awaitStateFrom target poll i fuel).1 = .ok () →
    ∃ j, i ≤ j ∧ j < i + fuel ∧ poll j = .ok target := by
  intro fuel
  induction fuel with
  | zero => intro i h; simp [awaitStateFrom] at h
  | succ f ih =>
    intro i h
    simp only [awaitStateFrom] at h
    cases hp : poll i with
    | error e => rw [hp] at h; simp at h
    | ok s =>
      rw [hp] at h
      by_cases hs : s = target
      · exact ⟨i, Nat.le_refl i, by omega, by rw [hp, hs]⟩
      · simp only [if_neg hs] at h
        obtain ⟨j, hij, hlt, hj⟩ := ih (i + 1) h
        exact ⟨j, by omega, by omega, hj⟩

theorem awaitStateFrom_timeout (target : FnState)
    (poll : Nat → Except JsError FnState) :
    ∀ (fuel i : Nat),
    (∀ j, i ≤ j → j < i + fuel → ∃ s, poll j = .ok s ∧ s ≠ target) →
    (awaitStateFrom target poll i fuel).1 = .error waiterTimedOut := by
  intro fuel
  induction fuel with
  | zero => intro i _; rfl
  | succ f ih =>
    intro i hall
    obtain ⟨s, hs, hsne⟩ := hall i (Nat.le_refl i) (by omega)
    simp only [awaitStateFrom, hs, if_neg hsne]
    exact ih (i + 1) (fun j h0 hj => hall j (by omega) (by omega))

theorem lookup_append_of_none {β : Type} (l₁ l₂ : List (String × β)) (k : String)
    (h : List.lookup k l₁ = none) :
    List.lookup k (l₁ ++ l₂) = List.lookup k l₂ := by
  induction l₁ with
  | nil => rfl
  | cons p t ih =>
    obtain ⟨a, b⟩ := p
    simp only [List.lookup, List.cons_append] at h ⊢
    cases hk : (k == a) with
    | true => rw [hk] at h; simp at h
    | false => rw [hk] at h; exact ih h

theorem lookup_singleton_self {β : Type} (k : String) (b : β) :
    List.lookup k [(k, b)] = some b := by
  simp [List.lookup]

/-! ### Role-resolver path lemmas -/

theorem getOrCreateRole_fast (st : IamState) (rn : Option String) (arn : String)
    (hfault : st.getRoleFault = none)
    (hfound : List.lookup (rn.getD SimpleLambda.defaultRoleName) st.roles = some arn) :
    SimpleLambda.getOrCreateRole st rn
      = (.ok arn, st, [Op.iamGetRole (rn.getD SimpleLambda.defaultRoleName)]) := by
  obtain ⟨roles, atts, fault⟩ := st
  simp only at hfault hfound
  subst hfault
  have hget : SimpleIAM.getRole ⟨roles, atts, none⟩
      (rn.getD SimpleLambda.defaultRoleName) = .ok arn := by
    unfold SimpleIAM.getRole awsGetRole
    simp only [hfound]
  simp only [SimpleLambda.getOrCreateRole, hget]

theorem getOrCreateRole_creates (st : IamState) (rn : Option String)
    (hfault : st.getRoleFault = none)
    (habsent : List.lookup (rn.getD SimpleLambda.defaultRoleName) st.roles = none) :
    SimpleLambda.getOrCreateRole st rn
      = (.ok (mkRoleArn (rn.getD SimpleLambda.defaultRoleName)),
         { roles := st.roles ++ [(rn.getD SimpleLambda.defaultRoleName,
             mkRoleArn (rn.getD SimpleLambda.defaultRoleName))],
           attachments := st.attachments ++ [(rn.getD SimpleLambda.defaultRoleName,
             SimpleLambda.basicExecutionPolicyArn)],
           getRoleFault := none },
         [Op.iamGetRole (rn.getD SimpleLambda.defaultRoleName),
          Op.iamCreateRole (rn.getD SimpleLambda.defaultRoleName)
            (jsonStringify SimpleLambda.assumePolicyDoc),
          Op.iamAttachRolePolicy (rn.getD SimpleLambda.defaultRoleName)
            SimpleLambda.basicExecutionPolicyArn]) := by
  obtain ⟨roles, atts, fault⟩ := st
  simp only at hfault habsent
  subst hfault
  have hget : SimpleIAM.getRole ⟨roles, atts, none⟩
      (rn.getD SimpleLambda.defaultRoleName)
      = .error (SimpleIAM.handleError
          ("getRole(" ++ rn.getD SimpleLambda.defaultRoleName ++ ")")
          (noSuchEntity (rn.getD SimpleLambda.defaultRoleName))) := by
    unfold SimpleIAM.getRole awsGetRole
    simp only [habsent]
  have hcreate : SimpleIAM.createRole ⟨roles, atts, none⟩
      (rn.getD SimpleLambda.defaultRoleName) SimpleLambda.assumePolicyDoc
      = (.ok (mkRoleArn (rn.getD SimpleLambda.defaultRoleName)),
         ⟨roles ++ [(rn.getD SimpleLambda.defaultRoleName,
             mkRoleArn (rn.getD SimpleLambda.defaultRoleName))], atts, none⟩) := by
    unfold SimpleIAM.createRole awsCreateRole
    simp only [habsent]
  have hattach : SimpleIAM.attachPolicyToRole
      ⟨roles ++ [(rn.getD SimpleLambda.defaultRoleName,
          mkRoleArn (rn.getD SimpleLambda.defaultRoleName))], atts, none⟩
      (rn.getD SimpleLambda.defaultRoleName) SimpleLambda.basicExecutionPolicyArn
      = (.ok (),
         ⟨roles ++ [(rn.getD SimpleLambda.defaultRoleName,
             mkRoleArn (rn.getD SimpleLambda.defaultRoleName))],
          atts ++ [(rn.getD SimpleLambda.defaultRoleName,
             SimpleLambda.basicExecutionPolicyArn)], none⟩) := by
    unfold SimpleIAM.attachPolicyToRole awsAttachRolePolicy
    simp only [lookup_append_of_none _ _ _ habsent, lookup_singleton_self]
  simp only [SimpleLambda.getOrCreateRole, hget, hcreate, hattach]

theorem getOrCreateRole_ok_of_no_fault (st : IamState) (rn : Option String)
    (hfault : st.getRoleFault = none) :
    ∃ arn st' tr, SimpleLambda.getOrCreateRole st rn = (.ok arn, st', tr) := by
  cases hlk : List.lookup (rn.getD SimpleLambda.defaultRoleName) st.roles with
  | some arn => exact ⟨arn, st, _, getOrCreateRole_fast st rn arn hfault hlk⟩
  | none => exact ⟨_, _, _, getOrCreateRole_creates st rn hfault hlk⟩

/-! ### Claim theorems -/

/-- A healthy remote world: no lookup fault, successful create/update calls,
polls that immediately report the terminal states, empty invoke response. -/
def baseEnv : LambdaEnv :=
  { iam := ⟨[], [], none⟩
    createFunctionArn := .ok "arn:aws:lambda:eu-west-1:000000000000:function:fn"
    updateFunctionArn := .ok "arn:aws:lambda:eu-west-1:000000000000:function:fn"
    createPoll := fun _ => .ok .active
    updatePoll := fun _ => .ok .updated
    invokeResult := .ok none }

/-- C1: `deploy` hands back a function identifier only if the Activation
Waiter observed the `Active` terminal state within its 180-poll budget; in
every other situation `deploy` raises, so a caller never receives a non-null
identifier while the resource's polled state is non-terminal. -/
theorem deploy_ok_requires_active (env : LambdaEnv)
    (functionName codeString : String) (opts : DeployOpts) (arn : String)
    (h : (SimpleLambda.deploy env functionName codeString opts).1 = .ok arn) :
    ∃ i, i < 180 ∧ env.createPoll i = .ok FnState.active := by
  unfold SimpleLambda.deploy at h
  rcases hrole : SimpleLambda.getOrCreateRole env.iam opts.roleName with ⟨res, st', tr⟩
  rw [hrole] at h
  cases res with
  | error e => simp at h
  | ok roleArn =>
    simp only [SimpleLambda.createZipBuffer] at h
    cases hc : env.createFunctionArn with
    | error e => rw [hc] at h; simp at h
    | ok arn' =>
      rw [hc] at h
      cases hw : (awaitState FnState.active env.createPoll 180).1 with
      | error e => rw [hw] at h; simp at h
      | ok u =>
        cases u
        unfold awaitState at hw
        obtain ⟨j, h0, hj, hpoll⟩ :=
          awaitStateFrom_ok FnState.active env.createPoll 180 0 hw
        exact ⟨j, by omega, hpoll⟩

/-- Witness for C1 at a concrete healthy environment. -/
theorem deploy_ok_requires_active_witness :
    ∃ i, i < 180 ∧ baseEnv.createPoll i = .ok FnState.active :=
  deploy_ok_requires_active baseEnv "fn" "exports.handler = async () => 1"
    ⟨none, none, none, none, none, none⟩
    "arn:aws:lambda:eu-west-1:000000000000:function:fn" rfl

/-- C2: when the role is absent and the provider is healthy, the first
`_getOrCreateRole` call issues exactly one create-identity call, and a second
call with the same name takes the fetch-only fast path: its trace is a single
lookup, it creates nothing, and it returns the existing identifier with the
state unchanged. -/
theorem ensureRole_idempotent (st : IamState) (rn : Option String)
    (res₁ : Except JsError String) (st₁ : IamState) (tr₁ : List Op)
    (hfault : st.getRoleFault = none)
    (habsent : List.lookup (rn.getD SimpleLambda.defaultRoleName) st.roles = none)
    (h₁ : SimpleLambda.getOrCreateRole st rn = (res₁, st₁, tr₁)) :
    countCreates tr₁ = 1 ∧
    SimpleLambda.getOrCreateRole st₁ rn
      = (.ok (mkRoleArn (rn.getD SimpleLambda.defaultRoleName)), st₁,
         [Op.iamGetRole (rn.getD SimpleLambda.defaultRoleName)]) := by
  rw [getOrCreateRole_creates st rn hfault habsent] at h₁
  injection h₁ with ha hbc
  injection hbc with hb hc
  subst ha
  subst hb
  subst hc
  constructor
  · rfl
  · apply getOrCreateRole_fast
    · rfl
    · show List.lookup (rn.getD SimpleLambda.defaultRoleName)
          (st.roles ++ [(rn.getD SimpleLambda.defaultRoleName,
            mkRoleArn (rn.getD SimpleLambda.defaultRoleName))])
          = some (mkRoleArn (rn.getD SimpleLambda.defaultRoleName))
      rw [lookup_append_of_none _ _ _ habsent, lookup_singleton_self]

/-- Witness for C2 at a concrete empty provider state. -/
theorem ensureRole_idempotent_witness :
    countCreates (SimpleLambda.getOrCreateRole ⟨[], [], none⟩ (some "app-role")).2.2 = 1 ∧
    SimpleLambda.getOrCreateRole
        (SimpleLambda.getOrCreateRole ⟨[], [], none⟩ (some "app-role")).2.1 (some "app-role")
      = (.ok (mkRoleArn "app-role"),
         (SimpleLambda.getOrCreateRole ⟨[], [], none⟩ (some "app-role")).2.1,
         [Op.iamGetRole "app-role"]) :=
  ensureRole_idempotent ⟨[], [], none⟩ (some "app-role")
    (SimpleLambda.getOrCreateRole ⟨[], [], none⟩ (some "app-role")).1
    (SimpleLambda.getOrCreateRole ⟨[], [], none⟩ (some "app-role")).2.1
    (SimpleLambda.getOrCreateRole ⟨[], [], none⟩ (some "app-role")).2.2
    rfl rfl rfl

/-- An authorization failure of the provider's `GetRole`, distinct from the
not-found miss. -/
def accessDenied : JsError :=
  ⟨"AccessDenied", "User is not authorized to perform iam:GetRole"⟩

/-- Counterexample to C3: with the lookup failing with `AccessDenied` (not a
not-found miss) against an empty role store, the resolver does NOT propagate
the lookup error and DOES take the create path: it issues one create-identity
call and returns a fresh identifier as if the role had merely been missing.
The source's bare `catch` treats every lookup failure as "create". -/
theorem getOrCreateRole_masks_lookup_errors :
    (SimpleLambda.getOrCreateRole ⟨[], [], some accessDenied⟩ (some "app-role")).1
        = .ok (mkRoleArn "app-role") ∧
    countCreates
      (SimpleLambda.getOrCreateRole ⟨[], [], some accessDenied⟩ (some "app-role")).2.2
        = 1 := by
  constructor <;> rfl

/-- C3 (amended): every lookup failure, of any kind, is treated as a missing
role and drives the create path; the lookup error itself never propagates out
of `_getOrCreateRole`. -/
theorem getOrCreateRole_any_lookup_error_creates (st : IamState)
    (rn : Option String) (e : JsError)
    (hfail : SimpleIAM.getRole st (rn.getD SimpleLambda.defaultRoleName) = .error e) :
    ∃ tail, (SimpleLambda.getOrCreateRole st rn).2.2
      = Op.iamGetRole (rn.getD SimpleLambda.defaultRoleName)
        :: Op.iamCreateRole (rn.getD SimpleLambda.defaultRoleName)
             (jsonStringify SimpleLambda.assumePolicyDoc) :: tail := by
  simp only [SimpleLambda.getOrCreateRole, hfail]
  rcases SimpleIAM.createRole st (rn.getD SimpleLambda.defaultRoleName)
      SimpleLambda.assumePolicyDoc with ⟨cr, st₁⟩
  cases cr with
  | error e' => exact ⟨[], rfl⟩
  | ok newArn =>
    simp only []
    rcases SimpleIAM.attachPolicyToRole st₁
        (rn.getD SimpleLambda.defaultRoleName)
        SimpleLambda.basicExecutionPolicyArn with ⟨ar, st₂⟩
    cases ar with
    | error e'' =>
      exact ⟨[Op.iamAttachRolePolicy (rn.getD SimpleLambda.defaultRoleName)
        SimpleLambda.basicExecutionPolicyArn], rfl⟩
    | ok u =>
      exact ⟨[Op.iamAttachRolePolicy (rn.getD SimpleLambda.defaultRoleName)
        SimpleLambda.basicExecutionPolicyArn], rfl⟩

/-- Witness for the amended C3 at a concrete faulting provider. -/
theorem getOrCreateRole_any_lookup_error_creates_witness :
    ∃ tail, (SimpleLambda.getOrCreateRole ⟨[], [], some accessDenied⟩
        (some "ops-role")).2.2
      = Op.iamGetRole "ops-role"
        :: Op.iamCreateRole "ops-role"
             (jsonStringify SimpleLambda.assumePolicyDoc) :: tail :=
  getOrCreateRole_any_lookup_error_creates ⟨[], [], some accessDenied⟩
    (some "ops-role")
    (SimpleIAM.handleError ("getRole(" ++ "ops-role" ++ ")") accessDenied) rfl

/-- Counterexample to C4: packing the empty source string succeeds and yields
an archive whose single `index.js` entry is empty — no `InvalidInput` (or any
other) error is raised; the source has no emptiness check at all. -/
theorem createZipBuffer_empty_counterexample :
    SimpleLambda.createZipBuffer "" = .ok [("index.js", "")] := rfl

/-- C4 (amended): the packager never fails; for every source string, empty
included, it deterministically produces the archive whose single entry is the
fixed name `index.js` holding exactly the source bytes. -/
theorem createZipBuffer_total (codeString : String) :
    SimpleLambda.createZipBuffer codeString = .ok [("index.js", codeString)] := rfl

/-- C5: when the remote invoke response carries exactly the bytes
`JSON.stringify payload`, `invoke` returns a value structurally equal to
`payload` (the serialize-then-deserialize round trip is the identity). -/
theorem invoke_roundtrip (env : LambdaEnv) (functionName : String) (payload : Jsonv) :
    (SimpleLambda.invoke
        { env with invokeResult := .ok (some (jsonStringify payload)) }
        functionName payload).1 = .ok payload := by
  unfold SimpleLambda.invoke
  simp only []
  have hne : (jsonStringify payload).toList.length ≠ 0 := by
    rw [show (jsonStringify payload).toList = stringifyValue payload from rfl]
    have hnil := stringifyValue_ne_nil payload
    cases hsv : stringifyValue payload with
    | nil => exact absurd hsv hnil
    | cons a l => simp
  rw [if_neg hne, jsonParse_jsonStringify]

/-- C6: an absent response payload, or one of zero bytes, makes `invoke`
return the empty structured value, not an error. -/
theorem invoke_empty_response (env : LambdaEnv) (functionName : String)
    (payload : Jsonv) :
    (SimpleLambda.invoke { env with invokeResult := .ok none }
        functionName payload).1 = .ok (Jsonv.obj []) ∧
    (SimpleLambda.invoke { env with invokeResult := .ok (some "") }
        functionName payload).1 = .ok (Jsonv.obj []) := by
  constructor <;> rfl

/-- Modelled from the spec: the distinct error kind `MalformedResponse` that
section 7 prescribes for an undecodable invoke response. No error class of
that name exists anywhere in the source. -/
def specMalformedResponseKind : String := "MalformedResponse"

/-- A remote world whose invoke response is non-empty but not decodable. -/
def badInvokeEnv : LambdaEnv :=
  { baseEnv with invokeResult := .ok (some "not json") }

/-- A remote world whose invoke call itself fails. -/
def failingInvokeEnv : LambdaEnv :=
  { baseEnv with invokeResult := .error ⟨"ServiceException", "boom"⟩ }

/-- Counterexample to C7: on undecodable non-empty response bytes `invoke`
raises the generic wrapped `Error` — the very same kind a plain remote
failure produces — and no error of the distinct kind `MalformedResponse`
exists: the decode failure is reported, but not as its own kind. -/
theorem invoke_malformed_not_distinct_kind :
    ((SimpleLambda.invoke badInvokeEnv "f" (Jsonv.obj [])).1
      = .error ⟨"Error", "Lambda invoke(f) failed: Unexpected token in JSON: not json"⟩) ∧
    ((SimpleLambda.invoke failingInvokeEnv "f" (Jsonv.obj [])).1
      = .error ⟨"Error", "Lambda invoke(f) failed: boom"⟩) ∧
    ("Error" ≠ specMalformedResponseKind) := by
  refine ⟨rfl, rfl, by decide⟩

/-- C7 (amended): an undecodable non-empty response makes `invoke` raise — the
failure is never silently swallowed — but the raised error is the generic
wrapped kind used for every failure, carrying the operation name and the
decode error's message, not a distinct `MalformedResponse` kind. -/
theorem invoke_malformed_raises (env : LambdaEnv) (functionName : String)
    (payload : Jsonv) (s : String)
    (hne : s.toList.length ≠ 0) (hbad : jsonParse s = none) :
    (SimpleLambda.invoke { env with invokeResult := .ok (some s) }
        functionName payload).1
      = .error (SimpleLambda.handleError ("invoke(" ++ functionName ++ ")")
          (SimpleLambda.jsonParseError s)) := by
  unfold SimpleLambda.invoke
  simp only []
  rw [if_neg hne, hbad]

/-- Witness for the amended C7 at concrete undecodable bytes. -/
theorem invoke_malformed_raises_witness :
    ("not json").toList.length ≠ 0 ∧ jsonParse "not json" = none ∧
    (SimpleLambda.invoke { baseEnv with invokeResult := .ok (some "not json") }
        "f" (Jsonv.obj [])).1
      = .error (SimpleLambda.handleError ("invoke(" ++ "f" ++ ")")
          (SimpleLambda.jsonParseError "not json")) :=
  ⟨by decide, rfl,
   invoke_malformed_raises baseEnv "f" (Jsonv.obj []) "not json" (by decide) rfl⟩

/-- C8: `update` performs no role resolution — its trace is exactly the one
update-code call (with the packaged archive) followed by waiter polls, so no
identity-service operation of any kind is issued — and it returns an
identifier only once the waiter has observed the `Updated` terminal state. -/
theorem update_frame_and_waits (env : LambdaEnv)
    (functionName codeString arn : String) :
    (∃ k, (SimpleLambda.update env functionName codeString).2
        = Op.lambdaUpdateFunctionCode functionName [("index.js", codeString)]
          :: List.replicate k (Op.lambdaPollFunction functionName)) ∧
    ((SimpleLambda.update env functionName codeString).1 = .ok arn →
      ∃ i, i < 180 ∧ env.updatePoll i = .ok FnState.updated) := by
  unfold SimpleLambda.update
  simp only [SimpleLambda.createZipBuffer]
  cases hu : env.updateFunctionArn with
  | error e =>
    constructor
    · exact ⟨0, rfl⟩
    · intro h; simp at h
  | ok arn' =>
    cases hw : (awaitState FnState.updated env.updatePoll 180).1 with
    | error e =>
      constructor
      · exact ⟨(awaitState FnState.updated env.updatePoll 180).2, rfl⟩
      · intro h; simp at h
    | ok u =>
      cases u
      constructor
      · exact ⟨(awaitState FnState.updated env.updatePoll 180).2, rfl⟩
      · intro _
        unfold awaitState at hw
        obtain ⟨j, h0, hj, hpoll⟩ :=
          awaitStateFrom_ok FnState.updated env.updatePoll 180 0 hw
        exact ⟨j, by omega, hpoll⟩

/-- Witness for C8 at a concrete healthy environment. -/
theorem update_frame_and_waits_witness :
    (∃ k, (SimpleLambda.update baseEnv "fn" "code").2
        = Op.lambdaUpdateFunctionCode "fn" [("index.js", "code")]
          :: List.replicate k (Op.lambdaPollFunction "fn")) ∧
    (∃ i, i < 180 ∧ baseEnv.updatePoll i = .ok FnState.updated) :=
  ⟨(update_frame_and_waits baseEnv "fn" "code"
      "arn:aws:lambda:eu-west-1:000000000000:function:fn").1,
   (update_frame_and_waits baseEnv "fn" "code"
      "arn:aws:lambda:eu-west-1:000000000000:function:fn").2 rfl⟩

/-- C9: `deploy` runs the Activation Waiter with the bounded budget of 180
time-units; if every poll within that budget still reports `Pending`, the
waiter times out and `deploy` surfaces the wrapped timeout error to the
caller. -/
theorem deploy_timeout (env : LambdaEnv) (functionName codeString : String)
    (opts : DeployOpts)
    (hfault : env.iam.getRoleFault = none)
    (hcreate : ∃ arn, env.createFunctionArn = .ok arn)
    (hpoll : ∀ i, i < 180 → env.createPoll i = .ok FnState.pending) :
    (SimpleLambda.deploy env functionName codeString opts).1
      = .error (SimpleLambda.handleError ("deploy(" ++ functionName ++ ")")
          waiterTimedOut) := by
  obtain ⟨arn, hc⟩ := hcreate
  obtain ⟨roleArn, st', tr, hrole⟩ :=
    getOrCreateRole_ok_of_no_fault env.iam opts.roleName hfault
  have hw : (awaitState FnState.active env.createPoll 180).1
      = .error waiterTimedOut := by
    unfold awaitState
    exact awaitStateFrom_timeout FnState.active env.createPoll 180 0
      (fun j h0 hj =>
        ⟨FnState.pending, hpoll j (by omega), by decide⟩)
  unfold SimpleLambda.deploy
  rw [hrole]
  simp only [SimpleLambda.createZipBuffer, hc, hw]

/-- An environment whose function never leaves `Pending`. -/
def stuckEnv : LambdaEnv :=
  { baseEnv with
    createPoll := fun _ => .ok .pending
    updatePoll := fun _ => .ok .pending }

/-- Witness for C9 at a concrete never-activating environment. -/
theorem deploy_timeout_witness :
    (SimpleLambda.deploy stuckEnv "fn" "code"
        ⟨none, none, none, none, none, none⟩).1
      = .error (SimpleLambda.handleError ("deploy(" ++ "fn" ++ ")")
          waiterTimedOut) :=
  deploy_timeout stuckEnv "fn" "code" ⟨none, none, none, none, none, none⟩
    rfl ⟨"arn:aws:lambda:eu-west-1:000000000000:function:fn", rfl⟩
    (fun _ _ => rfl)

/-- C10: recognized options with falsy values are silently replaced by the
built-in defaults in the create-resource call: `timeout = 0` becomes 10,
`memorySize = 0` becomes 128, `handler = ""` becomes `index.handler`, and
`description = ""` becomes the default description, so explicit zero/empty
values cannot be set through `deploy`. -/
theorem deploy_falsy_options_defaulted (env : LambdaEnv)
    (functionName codeString : String) (rt rn : Option String)
    (hfault : env.iam.getRoleFault = none) :
    ∃ roleArn, Op.lambdaCreateFunction functionName
        { role := roleArn
          handler := "index.handler"
          runtime := jsOrStr rt "nodejs18.x"
          codeZip := [("index.js", codeString)]
          description := "Created by boto3-js SimpleLambda"
          timeout := 10
          memorySize := 128 }
      ∈ (SimpleLambda.deploy env functionName codeString
          ⟨rn, some "", rt, some "", some 0, some 0⟩).2.2 := by
  obtain ⟨roleArn, st', tr, hrole⟩ :=
    getOrCreateRole_ok_of_no_fault env.iam rn hfault
  refine ⟨roleArn, ?_⟩
  unfold SimpleLambda.deploy
  rw [hrole]
  simp only [SimpleLambda.createZipBuffer, jsOrStr, jsOrInt, if_pos rfl]
  cases hc : env.createFunctionArn with
  | error e => simp
  | ok arn =>
    cases hw : (awaitState FnState.active env.createPoll 180).1 with
    | error e => simp
    | ok u => simp

/-- Witness for C10 at a concrete environment and options. -/
theorem deploy_falsy_options_defaulted_witness :
    ∃ roleArn, Op.lambdaCreateFunction "fn"
        { role := roleArn
          handler := "index.handler"
          runtime := jsOrStr (some "python3.11") "nodejs18.x"
          codeZip := [("index.js", "code")]
          description := "Created by boto3-js SimpleLambda"
          timeout := 10
          memorySize := 128 }
      ∈ (SimpleLambda.deploy baseEnv "fn" "code"
          ⟨none, some "", some "python3.11", some "", some 0, some 0⟩).2.2 :=
  deploy_falsy_options_defaulted baseEnv "fn" "code" (some "python3.11") none rfl
